import Mathlib

/-
Verification of the tofu synthetic data generator (helpers.py and tofu.py).

Shallow embedding conventions:
- the pandas lookup tables DF_FIELDS, DF_ENCODINGS, DF_STATS become explicit
  lists of records, passed as parameters (the Python module loads them once
  at import time; every function reads them read-only);
- numpy random draws become oracle streams (Nat to Nat for integer draws,
  Nat to Rat for standard normal draws); any actual run corresponds to some
  choice of streams, and every stream yields draws numpy could produce;
- numpy and pandas calls that can raise become Except String results,
  carrying the message of the exception that the library raises;
- Python floats are modelled by Rat with exact half-to-even rounding
  (the spec explicitly tolerates the rounding-mode variance).
-/

namespace Tofu

-- Data model ----------------------------------------------------------------

-- One row of DF_FIELDS (lookups/df_lkp_fields.tsv.gz); only the columns the
-- engine reads are kept: field_id, title, value_type, encoding_id,
-- instance_max, array_max.
structure FieldMetadata where
  field_id : Int
  title : String
  value_type : Int
  encoding_id : Int
  instance_max : Nat
  array_max : Nat
  deriving DecidableEq

-- One row of DF_ENCODINGS (lookups/df_lkp_encodings.csv.gz).
structure EncodingEntry where
  encoding_id : Int
  value : String
  selectable : Int
  meaning : String
  deriving DecidableEq

-- One row of DF_STATS (lookups/df_showcase_desc_stats.csv.gz).
structure StatEntry where
  field_id : Int
  mean : Rat
  sd : Rat
  deriving DecidableEq

-- A cell of a synthesized column.  Value.date is a day offset from MIN_DATE;
-- Value.missing is np.nan as used by insert_missingness; Value.emptyCell is
-- one slot of np.empty(n), whose numeric content numpy leaves uninitialized.
inductive Value where
  | date (offset : Nat)
  | str (s : String)
  | num (q : Rat)
  | emptyCell
  | missing
  deriving DecidableEq

-- helpers.py ----------------------------------------------------------------

-- helpers.py lines 14-15: MIN_DATE = 1910-01-01, MAX_DATE = 1990-12-31.
-- (MAX_DATE - MIN_DATE).days = 80 * 365 + 20 leap days (1912..1988) + 364
-- days from 1990-01-01 to 1990-12-31 = 29220 + 364 = 29584.
def dateSpanDays : Nat := 29584

-- helpers.py lines 26-36: DF_FIELDS.field_id.values, in table order.
def get_field_ids (fields : List FieldMetadata) : List Int :=
  fields.map (fun r => r.field_id)

-- helpers.py lines 39-58: filter DF_FIELDS on field_id; None when the
-- filtered frame is empty, else the first matching record.
def get_field_metadata (fields : List FieldMetadata) (field_id : Int) :
    Option FieldMetadata :=
  (fields.filter (fun r => r.field_id == field_id)).head?

-- helpers.py lines 61-75: ["fake1", ..., "fakeN"] from np.arange(1, n+1).
def gen_fake_ids (n : Nat) : List String :=
  (List.range n).map (fun k => "fake" ++ toString (k + 1))

-- helpers.py lines 98-99 and 271-272 build the same mask: rows of
-- DF_ENCODINGS with the given encoding_id and selectable != 0.
def selectableEntries (encodings : List EncodingEntry) (eid : Int) :
    List EncodingEntry :=
  encodings.filter (fun e => e.encoding_id == eid && e.selectable != 0)

-- helpers.py lines 78-105: the value column of the selectable rows.
def get_encoding_id_values (encodings : List EncodingEntry) (eid : Int) :
    List String :=
  (selectableEntries encodings eid).map (fun e => e.value)

-- numpy RandomState.randint(low, high, size): raises ValueError when
-- low >= high (the bound check precedes any sampling, also for size 0);
-- otherwise size independent uniform draws from [low, high).
def nprandint (low high : Nat) (size : Nat) (stream : Nat → Nat) :
    Except String (List Nat) :=
  if high ≤ low then .error "low >= high"
  else .ok ((List.range size).map (fun k => low + stream k % (high - low)))

-- numpy RandomState.choice(a, n): raises ValueError on an empty population
-- ("a must be non-empty"); otherwise n independent uniform draws, with
-- replacement, from the population.
def npchoice (vals : List String) (n : Nat) (stream : Nat → Nat) :
    Except String (List String) :=
  match vals with
  | [] => .error "a must be non-empty"
  | v0 :: _ => .ok ((List.range n).map
      (fun k => vals.getD (stream k % vals.length) v0))

-- numpy RandomState.normal(loc, scale, n): loc + scale * z over n standard
-- normal draws z supplied by the oracle.
def npnormal (mean sd : Rat) (n : Nat) (gauss : Nat → Rat) : List Rat :=
  (List.range n).map (fun k => mean + sd * gauss k)

-- Python round(): round half to even.
def roundHalfEven (x : Rat) : Int :=
  let f := x.floor
  let r := x - (f : Rat)
  if r < 1 / 2 then f
  else if 1 / 2 < r then f + 1
  else if f % 2 = 0 then f else f + 1

-- Python round(x, 4) and round(x, None) on our Rat model of floats.
def pyRound (dec : Option Nat) (x : Rat) : Rat :=
  match dec with
  | none => (roundHalfEven x : Rat)
  | some d => (roundHalfEven (x * (10 : Rat) ^ d) : Rat) / (10 : Rat) ^ d

-- helpers.py lines 152-159: mean = 0, sd = 1, overwritten from the first
-- row of DF_STATS matching the field id when that frame is non-empty.
def statsFor (stats : List StatEntry) (field_id : Int) : Rat × Rat :=
  match (stats.filter (fun s => s.field_id == field_id)).head? with
  | none => (0, 1)
  | some s => (s.mean, s.sd)

-- helpers.py lines 108-178.  An unknown field id makes line 131 subscript
-- None, a TypeError.  Dispatch: 51/61 dates, 21/22 categorical, 31/11
-- normal with rounding (4 digits for 31, none for 11), else np.empty(n).
def gen_dummy_data_for_field (fields : List FieldMetadata)
    (encodings : List EncodingEntry) (stats : List StatEntry)
    (field_id : Int) (n : Nat) (stream : Nat → Nat) (gauss : Nat → Rat) :
    Except String (List Value) :=
  match get_field_metadata fields field_id with
  | none => .error "TypeError"
  | some md =>
    if md.value_type = 51 ∨ md.value_type = 61 then
      match nprandint 0 (dateSpanDays + 1) n stream with
      | .error e => .error e
      | .ok rs => .ok (rs.map Value.date)
    else if md.value_type = 21 ∨ md.value_type = 22 then
      match npchoice (get_encoding_id_values encodings md.encoding_id) n stream with
      | .error e => .error e
      | .ok vs => .ok (vs.map Value.str)
    else if md.value_type = 31 ∨ md.value_type = 11 then
      let ms := statsFor stats field_id
      let dec : Option Nat := if md.value_type = 11 then none else some 4
      .ok ((npnormal ms.1 ms.2 n gauss).map (fun x => Value.num (pyRound dec x)))
    else
      .ok ((List.range n).map (fun _ => Value.emptyCell))

-- helpers.py lines 181-206: "%d-%d.%d" with the id, or the title in human
-- mode (the title lookup subscripts None for an unknown id, a TypeError).
def canonicalName (field_id : Int) (i a : Nat) : String :=
  toString field_id ++ "-" ++ toString i ++ "." ++ toString a

def humanName (md : FieldMetadata) (i a : Nat) : String :=
  md.title ++ "-" ++ toString i ++ "." ++ toString a

def gen_field_name (fields : List FieldMetadata) (field_id : Int)
    (i a : Nat) (human : Bool) : Except String String :=
  if human then
    match get_field_metadata fields field_id with
    | none => .error "TypeError"
    | some md => .ok (humanName md i a)
  else .ok (canonicalName field_id i a)

-- helpers.py lines 225-252.  howmany = int(len * perc / 100); then
-- np.random.randint(0, len, howmany) and a[i] = np.nan at each drawn index.
def setMissing (a : List Value) (idxs : List Nat) : List Value :=
  idxs.foldl (fun acc i => acc.set i Value.missing) a

def insert_missingness (a : List Value) (perc : Nat) (stream : Nat → Nat) :
    Except String (List Value) :=
  match nprandint 0 a.length (a.length * perc / 100) stream with
  | .error e => .error e
  | .ok idxs => .ok (setMissing a idxs)

-- The indices nprandint 0 len howmany yields from a given stream.
def drawnIndices (len perc : Nat) (stream : Nat → Nat) : List Nat :=
  (List.range (len * perc / 100)).map (fun k => stream k % len)

-- Heap model of the in-place mutation of insert_missingness: Python lists
-- are heap objects; a reference is an index into the heap.  The loop
-- a[i] = np.nan updates the referenced object in place (every write is the
-- same np.nan, so the sequential writes equal the aggregate setMissing),
-- and return a returns the same reference it was given.
def insertMissingnessRef (heap : List (List Value)) (r : Nat) (perc : Nat)
    (stream : Nat → Nat) : Except String (List (List Value) × Nat) :=
  match insert_missingness (heap.getD r []) perc stream with
  | .error e => .error e
  | .ok b => .ok (heap.set r b, r)

-- helpers.py lines 255-283.  decode_value filters the lookup frame on the
-- value column and takes iloc[0] of the meaning column of the first match;
-- the frame rows that can match a Value are the string-valued ones.
def valueMatches (v : Value) (e : EncodingEntry) : Bool :=
  match v with
  | .str s => s == e.value
  | _ => false

def decode_value (v : Value) (lookup : List EncodingEntry) : Value :=
  match (lookup.filter (fun e => valueMatches v e)).head? with
  | some e => Value.str e.meaning
  | none => v

def decode_values (fields : List FieldMetadata)
    (encodings : List EncodingEntry) (values : List Value) (field_id : Int) :
    Except String (List Value) :=
  match get_field_metadata fields field_id with
  | none => .error "TypeError"
  | some md =>
    let lookup := selectableEntries encodings md.encoding_id
    if md.encoding_id = 0 then .ok values
    else .ok (values.map (fun v => decode_value v lookup))

-- tofu.py -------------------------------------------------------------------

-- tofu.py lines 56-61.  With a user field list the code iterates
-- set(all_field_ids).intersection(set(args.field)): a Python set, whose
-- iteration order is implementation defined.  The order is modelled by the
-- oracle list enum, constrained (isEnumOf) to enumerate exactly the members
-- of the intersection, each once.  The assert fires when the intersection
-- is empty.
def setInter (all_ids fs : List Int) : List Int :=
  all_ids.filter (fun x => fs.contains x)

def isEnumOf (e s : List Int) : Prop :=
  e.Nodup ∧ (∀ x ∈ e, x ∈ s) ∧ (∀ x ∈ s, x ∈ e)

instance isEnumOfDec (e s : List Int) : Decidable (isEnumOf e s) :=
  decidable_of_iff (e.Nodup ∧ (∀ x ∈ e, x ∈ s) ∧ (∀ x ∈ s, x ∈ e)) Iff.rfl

-- The field iteration order of a run: the whole catalog when no filter is
-- supplied, else the (oracle) enumeration of the set intersection.
def processOrder (all_ids : List Int) (requested : Option (List Int))
    (enum : List Int) : List Int :=
  match requested with
  | none => all_ids
  | some _ => enum

def fields_to_process (all_ids : List Int) (requested : Option (List Int))
    (enum : List Int) : Except String (List Int) :=
  match requested with
  | none => .ok all_ids
  | some _ =>
      if enum.isEmpty then .error "Fields not found in lookup file."
      else .ok enum

-- tofu.py lines 76-85: instance_max and array_max of 0 mean one slice.
def normalizeMax (m : Nat) : Nat := if m = 0 then 1 else m

-- tofu.py lines 87-88: the nested loops over range(instance_max) and
-- range(array_max), instance-major.
def slicePairs (imax amax : Nat) : List (Nat × Nat) :=
  (List.range imax).flatMap (fun i => (List.range amax).map (fun a => (i, a)))

-- tofu.py lines 90-103: one (instance, array) slice: name, synthesize,
-- optionally decode, optionally insert missingness.
def processSlice (fields : List FieldMetadata) (encodings : List EncodingEntry)
    (stats : List StatEntry) (fid : Int) (i a : Nat) (n : Nat) (human : Bool)
    (jitter : Nat) (stream : Nat → Nat) (gauss : Nat → Rat)
    (mstream : Nat → Nat) : Except String (String × List Value) :=
  match gen_field_name fields fid i a human with
  | .error e => .error e
  | .ok name =>
    match gen_dummy_data_for_field fields encodings stats fid n stream gauss with
    | .error e => .error e
    | .ok dv =>
      match (if human then decode_values fields encodings dv fid else .ok dv) with
      | .error e => .error e
      | .ok dv2 =>
        match (if jitter > 0 then insert_missingness dv2 jitter mstream
               else .ok dv2) with
        | .error e => .error e
        | .ok dv3 => .ok (name, dv3)

-- The slices of one field in loop order; c is a global slice counter that
-- selects fresh random streams for every slice.
def processSlices (fields : List FieldMetadata) (encodings : List EncodingEntry)
    (stats : List StatEntry) (fid : Int) (n : Nat) (human : Bool)
    (jitter : Nat) (rng : Nat → Nat → Nat) (gauss : Nat → Nat → Rat)
    (mrng : Nat → Nat → Nat) (ps : List (Nat × Nat)) (c : Nat) :
    Except String (List (String × List Value)) :=
  match ps with
  | [] => .ok []
  | p :: rest =>
    match processSlice fields encodings stats fid p.1 p.2 n human jitter
        (rng c) (gauss c) (mrng c) with
    | .error e => .error e
    | .ok col =>
      match processSlices fields encodings stats fid n human jitter
          rng gauss mrng rest (c + 1) with
      | .error e => .error e
      | .ok cols => .ok (col :: cols)

-- tofu.py lines 63-103 for one field: r = get_field_metadata(field_id)
-- (subscripting None raises TypeError when the id is unknown), then all
-- (instance, array) slices.
def processField (fields : List FieldMetadata) (encodings : List EncodingEntry)
    (stats : List StatEntry) (fid : Int) (n : Nat) (human : Bool)
    (jitter : Nat) (rng : Nat → Nat → Nat) (gauss : Nat → Nat → Rat)
    (mrng : Nat → Nat → Nat) (c : Nat) :
    Except String (List (String × List Value) × Nat) :=
  match get_field_metadata fields fid with
  | none => .error "TypeError"
  | some md =>
    let imax := normalizeMax md.instance_max
    let amax := normalizeMax md.array_max
    match processSlices fields encodings stats fid n human jitter
        rng gauss mrng (slicePairs imax amax) c with
    | .error e => .error e
    | .ok cols => .ok (cols, c + imax * amax)

def processFields (fields : List FieldMetadata) (encodings : List EncodingEntry)
    (stats : List StatEntry) (fids : List Int) (n : Nat) (human : Bool)
    (jitter : Nat) (rng : Nat → Nat → Nat) (gauss : Nat → Nat → Rat)
    (mrng : Nat → Nat → Nat) (c : Nat) :
    Except String (List (String × List Value)) :=
  match fids with
  | [] => .ok []
  | fid :: rest =>
    match processField fields encodings stats fid n human jitter
        rng gauss mrng c with
    | .error e => .error e
    | .ok colsc =>
      match processFields fields encodings stats rest n human jitter
          rng gauss mrng colsc.2 with
      | .error e => .error e
      | .ok cols2 => .ok (colsc.1 ++ cols2)

-- tofu.py lines 50-105: the eid column first, then every field column in
-- field-processing order.  The output table is the ordered list of
-- (column name, column values) pairs.
def assemble (fields : List FieldMetadata) (encodings : List EncodingEntry)
    (stats : List StatEntry) (requested : Option (List Int)) (enum : List Int)
    (n : Nat) (human : Bool) (jitter : Nat) (rng : Nat → Nat → Nat)
    (gauss : Nat → Nat → Rat) (mrng : Nat → Nat → Nat) :
    Except String (List (String × List Value)) :=
  match fields_to_process (get_field_ids fields) requested enum with
  | .error e => .error e
  | .ok fs =>
    match processFields fields encodings stats fs n human jitter
        rng gauss mrng 0 with
    | .error e => .error e
    | .ok cols => .ok (("eid", (gen_fake_ids n).map Value.str) :: cols)

-- Projection of a run result to its ordered column names.
def colNames (r : Except String (List (String × List Value))) :
    Except String (List String) :=
  r.map (fun cols => cols.map Prod.fst)

-- The name the run gives the slice (i, a) of a field, and the names of all
-- slices of a field, in loop order.
def expectedName (fields : List FieldMetadata) (fid : Int) (i a : Nat)
    (human : Bool) : String :=
  if human then
    match get_field_metadata fields fid with
    | some md => humanName md i a
    | none => ""
  else canonicalName fid i a

def expectedNames (fields : List FieldMetadata) (fid : Int) (human : Bool) :
    List String :=
  match get_field_metadata fields fid with
  | none => []
  | some md =>
    (slicePairs (normalizeMax md.instance_max) (normalizeMax md.array_max)).map
      (fun p => expectedName fields fid p.1 p.2 human)

-- Concrete fixtures used by witnesses and counterexamples -------------------

-- A one-field catalog: field 3, date valued (value_type 51), no encoding.
def catA : List FieldMetadata := [⟨3, "Date of interview", 51, 0, 0, 0⟩]

-- A two-field catalog of date-valued fields 31 and 34.
def catB : List FieldMetadata := [⟨31, "First date", 51, 0, 0, 0⟩, ⟨34, "Second date", 51, 0, 0, 0⟩]

-- A categorical catalog: field 20002 with encoding 6, and a date field.
def catC : List FieldMetadata :=
  [⟨20002, "Diseases", 21, 6, 0, 0⟩, ⟨53, "Date of visit", 51, 0, 0, 0⟩]

-- Encoding 6 with two selectable rows and one non-selectable row.
def encC : List EncodingEntry :=
  [⟨6, "1545", 1, "neck problem"⟩, ⟨6, "1164", 1, "pancreatic disease"⟩,
   ⟨6, "99", 0, "administrative"⟩]

-- A categorical catalog whose encoding 7 has no selectable rows.
def catD : List FieldMetadata := [⟨20003, "Treatments", 22, 7, 0, 0⟩]

def encD : List EncodingEntry := [⟨7, "5", 0, "hidden"⟩]

-- Statistics for field 21022 (age): mean 55, sd 8.
def statsC : List StatEntry := [⟨21022, 55, 8⟩]

def catE : List FieldMetadata := [⟨21022, "Age at recruitment", 31, 0, 0, 0⟩]

-- Decidable equality on Except results, for concrete evaluation.
instance exceptDecEq {ε α : Type} [DecidableEq ε] [DecidableEq α] :
    DecidableEq (Except ε α)
  | .error a, .error b =>
    if h : a = b then isTrue (by rw [h])
    else isFalse (by intro hc; cases hc; exact h rfl)
  | .error _, .ok _ => isFalse (by intro hc; cases hc)
  | .ok _, .error _ => isFalse (by intro hc; cases hc)
  | .ok a, .ok b =>
    if h : a = b then isTrue (by rw [h])
    else isFalse (by intro hc; cases hc; exact h rfl)

-- Constant-zero oracle streams.
def zN : Nat → Nat := fun _ => 0

def zQ : Nat → Rat := fun _ => 0

def zN2 : Nat → Nat → Nat := fun _ _ => 0

def zQ2 : Nat → Nat → Rat := fun _ _ => 0

-- General helper lemmas ------------------------------------------------------

theorem head?_filter_eq_find? {α : Type} (p : α → Bool) (l : List α) :
    (l.filter p).head? = l.find? p := by
  induction l with
  | nil => rfl
  | cons x t ih =>
    by_cases h : p x <;> simp [List.filter_cons, List.find?_cons, h, ih]

theorem decode_value_eq_find? (v : Value) (lookup : List EncodingEntry) :
    decode_value v lookup =
      match lookup.find? (fun e => valueMatches v e) with
      | some e => Value.str e.meaning
      | none => v := by
  unfold decode_value
  rw [head?_filter_eq_find?]

theorem setMissing_length (idxs : List Nat) (a : List Value) :
    (setMissing a idxs).length = a.length := by
  induction idxs generalizing a with
  | nil => rfl
  | cons j t ih =>
    have h := ih (a.set j Value.missing)
    simp only [setMissing, List.foldl_cons] at h ⊢
    rw [h, List.length_set]

theorem setMissing_getElem? (idxs : List Nat) (a : List Value) (i : Nat) :
    (setMissing a idxs)[i]? =
      if i ∈ idxs ∧ i < a.length then some Value.missing else a[i]? := by
  induction idxs generalizing a with
  | nil => simp [setMissing]
  | cons j t ih =>
    have h := ih (a.set j Value.missing)
    simp only [setMissing, List.foldl_cons] at h ⊢
    rw [h, List.length_set]
    by_cases ht : i ∈ t
    · by_cases hlen : i < a.length
      · simp [ht, hlen]
      · have h1 : a.length ≤ i := Nat.le_of_not_lt hlen
        have h2 : (a.set j Value.missing).length ≤ i := by
          rw [List.length_set]; exact h1
        simp [ht, hlen, List.getElem?_eq_none h1, List.getElem?_eq_none h2]
    · by_cases hj : i = j
      · subst hj
        by_cases hlen : i < a.length
        · simp [ht, hlen, List.getElem?_set_self, List.getElem?_eq_getElem hlen]
        · have h1 : a.length ≤ i := Nat.le_of_not_lt hlen
          have h2 : (a.set i Value.missing).length ≤ i := by
            rw [List.length_set]; exact h1
          simp [ht, hlen, List.getElem?_eq_none h1, List.getElem?_eq_none h2]
      · have hne : j ≠ i := fun hc => hj hc.symm
        simp [ht, hj, List.getElem?_set_ne hne]

theorem setMissing_changed_subset (idxs : List Nat) (a : List Value) (i : Nat)
    (h : (setMissing a idxs)[i]? ≠ a[i]?) : i ∈ idxs := by
  by_contra hnot
  apply h
  rw [setMissing_getElem?]
  simp [hnot]

theorem setMissing_count_le (idxs : List Nat) (a : List Value) :
    ((List.range a.length).filter
      (fun i => decide ((setMissing a idxs)[i]? ≠ a[i]?))).length ≤ idxs.length := by
  have hd_nodup : ((List.range a.length).filter
      (fun i => decide ((setMissing a idxs)[i]? ≠ a[i]?))).Nodup :=
    (List.nodup_range a.length).filter _
  have hsub : ∀ i ∈ (List.range a.length).filter
      (fun i => decide ((setMissing a idxs)[i]? ≠ a[i]?)), i ∈ idxs := by
    intro i hi
    have h2 := (List.mem_filter.mp hi).2
    exact setMissing_changed_subset idxs a i (of_decide_eq_true h2)
  have h1 := List.toFinset_card_of_nodup hd_nodup
  have h2 : ((List.range a.length).filter
      (fun i => decide ((setMissing a idxs)[i]? ≠ a[i]?))).toFinset ⊆ idxs.toFinset := by
    intro x hx
    exact List.mem_toFinset.mpr (hsub x (List.mem_toFinset.mp hx))
  calc ((List.range a.length).filter
      (fun i => decide ((setMissing a idxs)[i]? ≠ a[i]?))).length
      = _ := h1.symm
    _ ≤ idxs.toFinset.card := Finset.card_le_card h2
    _ ≤ idxs.length := List.toFinset_card_le idxs

theorem roundHalfEven_intCast (z : Int) : roundHalfEven (z : Rat) = z := by
  have hf : ((z : Rat)).floor = z := by
    rw [Rat.floor_def']
    simp
  simp only [roundHalfEven, hf]
  norm_num

-- Claim theorems -------------------------------------------------------------

/-- Claim C1: for every field id present in the metadata catalog and every
requested count n, gen_dummy_data_for_field returns a list of exactly n
values, in every value_type class (51/61 dates, 21/22 categorical, 31/11
numeric, and every other code); the only error exit for a catalogued field
is the categorical branch with an empty selectable-value set. -/
theorem gen_dummy_length_invariant (fields : List FieldMetadata)
    (encodings : List EncodingEntry) (stats : List StatEntry) (fid : Int)
    (n : Nat) (stream : Nat → Nat) (gauss : Nat → Rat) (md : FieldMetadata)
    (hmd : get_field_metadata fields fid = some md) :
    (∀ l, gen_dummy_data_for_field fields encodings stats fid n stream gauss
        = .ok l → l.length = n)
    ∧ (∀ e, gen_dummy_data_for_field fields encodings stats fid n stream gauss
        = .error e →
        (md.value_type = 21 ∨ md.value_type = 22)
        ∧ get_encoding_id_values encodings md.encoding_id = []) := by
  constructor
  · intro l hl
    unfold gen_dummy_data_for_field at hl
    rw [hmd] at hl
    dsimp only at hl
    split_ifs at hl with h1 h2 h3 h4
    · simp only [nprandint, dateSpanDays] at hl
      rw [if_neg (by decide)] at hl
      simp only [Except.ok.injEq] at hl
      subst hl
      simp
    · cases hv : get_encoding_id_values encodings md.encoding_id with
      | nil => rw [hv] at hl; simp [npchoice] at hl
      | cons v0 t =>
        rw [hv] at hl
        simp only [npchoice, Except.ok.injEq] at hl
        subst hl
        simp
    · simp only [Except.ok.injEq] at hl
      subst hl
      simp [npnormal]
    · simp only [Except.ok.injEq] at hl
      subst hl
      simp [npnormal]
    · simp only [Except.ok.injEq] at hl
      subst hl
      simp
  · intro e he
    unfold gen_dummy_data_for_field at he
    rw [hmd] at he
    dsimp only at he
    split_ifs at he with h1 h2
    · simp only [nprandint, dateSpanDays] at he
      rw [if_neg (by decide)] at he
      simp at he
    · cases hv : get_encoding_id_values encodings md.encoding_id with
      | nil => exact ⟨h2, rfl⟩
      | cons v0 t => rw [hv] at he; simp [npchoice] at he

/-- Claim C1 witness: a concrete categorical field (20002, encoding 6) with
a non-empty selectable set, instantiated at n = 3. -/
theorem gen_dummy_length_invariant_witness :
    (∀ l, gen_dummy_data_for_field catC encC [] 20002 3 zN zQ = .ok l →
      l.length = 3)
    ∧ (∀ e, gen_dummy_data_for_field catC encC [] 20002 3 zN zQ = .error e →
        ((⟨20002, "Diseases", 21, 6, 0, 0⟩ : FieldMetadata).value_type = 21
          ∨ (⟨20002, "Diseases", 21, 6, 0, 0⟩ : FieldMetadata).value_type = 22)
        ∧ get_encoding_id_values encC
            (⟨20002, "Diseases", 21, 6, 0, 0⟩ : FieldMetadata).encoding_id = []) :=
  gen_dummy_length_invariant catC encC [] 20002 3 zN zQ
    ⟨20002, "Diseases", 21, 6, 0, 0⟩ rfl

/-- Claim C2: for a categorical field (value_type 21 or 22) of the catalog,
every raw value gen_dummy_data_for_field returns is a Value.str drawn from
the selectable-value list of the encoding id of the field. -/
theorem categorical_values_selectable (fields : List FieldMetadata)
    (encodings : List EncodingEntry) (stats : List StatEntry) (fid : Int)
    (n : Nat) (stream : Nat → Nat) (gauss : Nat → Rat) (md : FieldMetadata)
    (l : List Value) (hmd : get_field_metadata fields fid = some md)
    (hvt : md.value_type = 21 ∨ md.value_type = 22)
    (hres : gen_dummy_data_for_field fields encodings stats fid n stream gauss
      = .ok l) :
    l.length = n ∧ ∀ v ∈ l, ∃ s, v = Value.str s ∧
      s ∈ get_encoding_id_values encodings md.encoding_id := by
  have h1 : ¬(md.value_type = 51 ∨ md.value_type = 61) := by
    rcases hvt with h | h <;> rw [h] <;> decide
  unfold gen_dummy_data_for_field at hres
  rw [hmd] at hres
  dsimp only at hres
  rw [if_neg h1, if_pos hvt] at hres
  cases hv : get_encoding_id_values encodings md.encoding_id with
  | nil => rw [hv] at hres; simp [npchoice] at hres
  | cons v0 t =>
    rw [hv] at hres
    simp only [npchoice, Except.ok.injEq] at hres
    subst hres
    refine ⟨by simp, ?_⟩
    intro v hv2
    rw [List.map_map] at hv2
    simp only [List.mem_map, List.mem_range, Function.comp] at hv2
    obtain ⟨k, hk, hkv⟩ := hv2
    refine ⟨(v0 :: t).getD (stream k % (v0 :: t).length) v0, hkv.symm, ?_⟩
    have hlt : stream k % (v0 :: t).length < (v0 :: t).length :=
      Nat.mod_lt _ (by simp)
    rw [List.getD_eq_getElem (v0 :: t) v0 hlt]
    exact List.getElem_mem hlt

/-- Claim C2 witness: field 20002 under encoding 6, three draws with the
zero stream; both returned values are in the selectable set of encoding 6. -/
theorem categorical_values_selectable_witness :
    ([Value.str "1545", Value.str "1545", Value.str "1545"] : List Value).length = 3
    ∧ ∀ v ∈ ([Value.str "1545", Value.str "1545", Value.str "1545"] : List Value),
        ∃ s, v = Value.str s ∧ s ∈ get_encoding_id_values encC
          (⟨20002, "Diseases", 21, 6, 0, 0⟩ : FieldMetadata).encoding_id :=
  categorical_values_selectable catC encC [] 20002 3 zN zQ
    ⟨20002, "Diseases", 21, 6, 0, 0⟩
    [Value.str "1545", Value.str "1545", Value.str "1545"] rfl (Or.inl rfl) rfl

/-- Claim C4: for a categorical field of the catalog whose encoding id has
no selectable entries, gen_dummy_data_for_field raises (the numpy choice
error on an empty population) instead of returning a degenerate list. -/
theorem categorical_empty_fails (fields : List FieldMetadata)
    (encodings : List EncodingEntry) (stats : List StatEntry) (fid : Int)
    (n : Nat) (stream : Nat → Nat) (gauss : Nat → Rat) (md : FieldMetadata)
    (hmd : get_field_metadata fields fid = some md)
    (hvt : md.value_type = 21 ∨ md.value_type = 22)
    (hempty : get_encoding_id_values encodings md.encoding_id = []) :
    gen_dummy_data_for_field fields encodings stats fid n stream gauss
      = .error "a must be non-empty" := by
  have h1 : ¬(md.value_type = 51 ∨ md.value_type = 61) := by
    rcases hvt with h | h <;> rw [h] <;> decide
  unfold gen_dummy_data_for_field
  rw [hmd]
  dsimp only
  rw [if_neg h1, if_pos hvt, hempty]
  rfl

/-- Claim C4 witness: field 20003 (value_type 22, encoding 7) whose only
encoding row is non-selectable. -/
theorem categorical_empty_fails_witness :
    gen_dummy_data_for_field catD encD [] 20003 5 zN zQ
      = .error "a must be non-empty" :=
  categorical_empty_fails catD encD [] 20003 5 zN zQ
    ⟨20003, "Treatments", 22, 7, 0, 0⟩ rfl (Or.inr rfl) rfl

/-- Claim C7: for a field of value_type 31 or 11 of the catalog, the values
are normal samples with the (mean, sd) of the first statistics row of the
field id, (0, 1) when none exists; each value is rounded to 4 decimal
digits for value_type 31 and to an integer for value_type 11. -/
theorem numeric_sampling_spec (fields : List FieldMetadata)
    (encodings : List EncodingEntry) (stats : List StatEntry) (fid : Int)
    (n : Nat) (stream : Nat → Nat) (gauss : Nat → Rat) (md : FieldMetadata)
    (l : List Value) (hmd : get_field_metadata fields fid = some md)
    (hvt : md.value_type = 31 ∨ md.value_type = 11)
    (hres : gen_dummy_data_for_field fields encodings stats fid n stream gauss
      = .ok l) :
    l.length = n
    ∧ (∀ k, k < n → l[k]? = some (Value.num (pyRound
        (if md.value_type = 11 then none else some 4)
        ((statsFor stats fid).1 + (statsFor stats fid).2 * gauss k))))
    ∧ (stats.filter (fun s => s.field_id == fid) = [] →
        statsFor stats fid = (0, 1))
    ∧ (md.value_type = 11 → ∀ k, k < n →
        l[k]? = some (Value.num ((roundHalfEven
          ((statsFor stats fid).1 + (statsFor stats fid).2 * gauss k) : Int) : Rat)))
    ∧ (md.value_type = 31 → ∀ k, k < n →
        l[k]? = some (Value.num (((roundHalfEven
          (((statsFor stats fid).1 + (statsFor stats fid).2 * gauss k)
            * (10 : Rat) ^ 4) : Int) : Rat) / (10 : Rat) ^ 4))) := by
  have h1 : ¬(md.value_type = 51 ∨ md.value_type = 61) := by
    rcases hvt with h | h <;> rw [h] <;> decide
  have h2 : ¬(md.value_type = 21 ∨ md.value_type = 22) := by
    rcases hvt with h | h <;> rw [h] <;> decide
  unfold gen_dummy_data_for_field at hres
  rw [hmd] at hres
  dsimp only at hres
  rw [if_neg h1, if_neg h2, if_pos hvt] at hres
  simp only [Except.ok.injEq] at hres
  subst hres
  have hget : ∀ k, k < n →
      ((npnormal (statsFor stats fid).1 (statsFor stats fid).2 n gauss).map
        (fun x => Value.num (pyRound (if md.value_type = 11 then none else some 4) x)))[k]?
      = some (Value.num (pyRound (if md.value_type = 11 then none else some 4)
          ((statsFor stats fid).1 + (statsFor stats fid).2 * gauss k))) := by
    intro k hk
    simp [npnormal, List.getElem?_map, List.getElem?_range, hk]
  refine ⟨by simp [npnormal], hget, ?_, ?_, ?_⟩
  · intro hfil
    simp [statsFor, hfil]
  · intro h11 k hk
    have := hget k hk
    rw [h11] at this ⊢
    simpa [pyRound] using this
  · intro h31 k hk
    have := hget k hk
    rw [h31] at this ⊢
    simpa [pyRound] using this

/-- Claim C7 witness: field 21022 (value_type 31) with a statistics row of
mean 55 and sd 8, one sample from the zero gaussian stream; the returned
value is 55 rounded at 4 digits. -/
theorem numeric_sampling_spec_witness :
    ([Value.num 55] : List Value).length = 1
    ∧ (∀ k, k < 1 → ([Value.num 55] : List Value)[k]? = some (Value.num (pyRound
        (if (⟨21022, "Age at recruitment", 31, 0, 0, 0⟩ : FieldMetadata).value_type = 11
          then none else some 4)
        ((statsFor statsC 21022).1 + (statsFor statsC 21022).2 * zQ k))))
    ∧ (statsC.filter (fun s => s.field_id == 21022) = [] →
        statsFor statsC 21022 = (0, 1))
    ∧ ((⟨21022, "Age at recruitment", 31, 0, 0, 0⟩ : FieldMetadata).value_type = 11
        → ∀ k, k < 1 → ([Value.num 55] : List Value)[k]? = some (Value.num ((roundHalfEven
          ((statsFor statsC 21022).1 + (statsFor statsC 21022).2 * zQ k) : Int) : Rat)))
    ∧ ((⟨21022, "Age at recruitment", 31, 0, 0, 0⟩ : FieldMetadata).value_type = 31
        → ∀ k, k < 1 → ([Value.num 55] : List Value)[k]? = some (Value.num (((roundHalfEven
          (((statsFor statsC 21022).1 + (statsFor statsC 21022).2 * zQ k)
            * (10 : Rat) ^ 4) : Int) : Rat) / (10 : Rat) ^ 4))) := by
  have hstruct : gen_dummy_data_for_field catE [] statsC 21022 1 zN zQ
      = .ok [Value.num (pyRound (some 4)
          ((statsFor statsC 21022).1 + (statsFor statsC 21022).2 * zQ 0))] := rfl
  have hst : statsFor statsC 21022 = (55, 8) := rfl
  have hval : pyRound (some 4)
      ((statsFor statsC 21022).1 + (statsFor statsC 21022).2 * zQ 0) = 55 := by
    rw [hst]
    show pyRound (some 4) (55 + 8 * zQ 0) = 55
    have hz : zQ 0 = (0 : Rat) := rfl
    rw [hz]
    have harg : (55 + 8 * 0 : Rat) * (10 : Rat) ^ 4 = ((550000 : Int) : Rat) := by
      norm_num
    simp only [pyRound]
    rw [harg, roundHalfEven_intCast]
    norm_num
  have hres : gen_dummy_data_for_field catE [] statsC 21022 1 zN zQ
      = .ok [Value.num 55] := by
    rw [hstruct, hval]
  exact numeric_sampling_spec catE [] statsC 21022 1 zN zQ
    ⟨21022, "Age at recruitment", 31, 0, 0, 0⟩ [Value.num 55] rfl (Or.inl rfl)
    hres

/-- Claim C5: decode_values returns a list of the same length and order as
its input; it is the identity when the encoding id of the field is 0, and
otherwise each value matching a selectable encoding entry is replaced by
the meaning of the first such entry while non-matching values pass through
unchanged, without failing. -/
theorem decode_values_spec (fields : List FieldMetadata)
    (encodings : List EncodingEntry) (values : List Value) (fid : Int)
    (md : FieldMetadata) (l : List Value)
    (hmd : get_field_metadata fields fid = some md)
    (hres : decode_values fields encodings values fid = .ok l) :
    l.length = values.length
    ∧ (md.encoding_id = 0 → l = values)
    ∧ (md.encoding_id ≠ 0 → ∀ i, (hi : i < values.length) →
        l[i]? = some (match (selectableEntries encodings md.encoding_id).find?
            (fun e => valueMatches values[i] e) with
          | some e => Value.str e.meaning
          | none => values[i])) := by
  unfold decode_values at hres
  rw [hmd] at hres
  dsimp only at hres
  by_cases h0 : md.encoding_id = 0
  · rw [if_pos h0] at hres
    simp only [Except.ok.injEq] at hres
    subst hres
    exact ⟨rfl, fun _ => rfl, fun hne => absurd h0 hne⟩
  · rw [if_neg h0] at hres
    simp only [Except.ok.injEq] at hres
    subst hres
    refine ⟨by simp, fun hc => absurd hc h0, ?_⟩
    intro _ i hi
    rw [List.getElem?_map, List.getElem?_eq_getElem hi]
    exact congrArg some (decode_value_eq_find? _ _)

/-- Claim C5 witness: decoding of field 20002 (encoding 6): a selectable
code is replaced by its meaning, an unknown code and a non-string value
pass through, and length and order are preserved. -/
theorem decode_values_spec_witness :
    ([Value.str "neck problem", Value.str "7777", Value.num 3] : List Value).length
      = ([Value.str "1545", Value.str "7777", Value.num 3] : List Value).length
    ∧ ((⟨20002, "Diseases", 21, 6, 0, 0⟩ : FieldMetadata).encoding_id = 0 →
        ([Value.str "neck problem", Value.str "7777", Value.num 3] : List Value)
          = [Value.str "1545", Value.str "7777", Value.num 3])
    ∧ ((⟨20002, "Diseases", 21, 6, 0, 0⟩ : FieldMetadata).encoding_id ≠ 0 →
        ∀ i, (hi : i < ([Value.str "1545", Value.str "7777", Value.num 3] : List Value).length) →
        ([Value.str "neck problem", Value.str "7777", Value.num 3] : List Value)[i]?
          = some (match (selectableEntries encC
              (⟨20002, "Diseases", 21, 6, 0, 0⟩ : FieldMetadata).encoding_id).find?
              (fun e => valueMatches
                ([Value.str "1545", Value.str "7777", Value.num 3] : List Value)[i] e) with
            | some e => Value.str e.meaning
            | none => ([Value.str "1545", Value.str "7777", Value.num 3] : List Value)[i])) :=
  decode_values_spec catC encC [Value.str "1545", Value.str "7777", Value.num 3]
    20002 ⟨20002, "Diseases", 21, 6, 0, 0⟩
    [Value.str "neck problem", Value.str "7777", Value.num 3] rfl rfl

/-- Claim C6 counterexample: the claim quantifies over every sequence, but
on the empty sequence insert_missingness does not return a sequence at all:
numpy randint(0, 0, 0) raises ValueError (low >= high), so the call fails
instead of returning an empty list. -/
theorem insert_missingness_empty_cex :
    insert_missingness [] 10 zN = .error "low >= high" := rfl

/-- Claim C6 (amended): for every sequence of positive length and percent,
insert_missingness returns a list of the same length in which the
floor(len * percent / 100) drawn indices (uniform draws with replacement,
reduced mod len) are set to the missing marker, every position not drawn
keeps its original value, and the number of changed positions is at most
floor(len * percent / 100). -/
theorem insert_missingness_spec (a : List Value) (perc : Nat)
    (stream : Nat → Nat) (h : 0 < a.length) :
    insert_missingness a perc stream
      = .ok (setMissing a (drawnIndices a.length perc stream))
    ∧ (setMissing a (drawnIndices a.length perc stream)).length = a.length
    ∧ (drawnIndices a.length perc stream).length = a.length * perc / 100
    ∧ (∀ i, i ∈ drawnIndices a.length perc stream →
        (setMissing a (drawnIndices a.length perc stream))[i]? = some Value.missing)
    ∧ (∀ i, i ∉ drawnIndices a.length perc stream →
        (setMissing a (drawnIndices a.length perc stream))[i]? = a[i]?)
    ∧ ((List.range a.length).filter (fun i =>
        decide ((setMissing a (drawnIndices a.length perc stream))[i]? ≠ a[i]?))).length
      ≤ a.length * perc / 100 := by
  have hne : ¬ (a.length ≤ 0) := Nat.not_le.mpr h
  refine ⟨?_, setMissing_length _ _, by simp [drawnIndices], ?_, ?_, ?_⟩
  · unfold insert_missingness nprandint
    rw [if_neg hne]
    simp [drawnIndices]
  · intro i hi
    have hlt : i < a.length := by
      simp only [drawnIndices, List.mem_map, List.mem_range] at hi
      obtain ⟨k, _, hk⟩ := hi
      exact hk ▸ Nat.mod_lt _ h
    rw [setMissing_getElem?]
    simp [hi, hlt]
  · intro i hi
    rw [setMissing_getElem?]
    simp [hi]
  · calc ((List.range a.length).filter (fun i =>
        decide ((setMissing a (drawnIndices a.length perc stream))[i]? ≠ a[i]?))).length
        ≤ (drawnIndices a.length perc stream).length :=
          setMissing_count_le (drawnIndices a.length perc stream) a
    _ = a.length * perc / 100 := by simp [drawnIndices]

/-- Claim C6 witness: on a two-element list at 50 percent with the zero
stream, one index is drawn (index 0) and set to the missing marker, the
other position is untouched. -/
theorem insert_missingness_spec_witness :
    insert_missingness [Value.num 0, Value.str "x"] 50 zN
      = .ok [Value.missing, Value.str "x"] :=
  (insert_missingness_spec [Value.num 0, Value.str "x"] 50 zN (by decide)).1

/-- Claim C10: in the heap model of the Python call, insert_missingness
mutates its argument in place: the returned reference is the argument
reference, the referenced list now carries the injected missing markers,
and no other heap cell changed, so the overwritten values are not
preserved anywhere. -/
theorem insert_missingness_in_place (heap : List (List Value)) (r : Nat)
    (perc : Nat) (stream : Nat → Nat) (heap2 : List (List Value)) (r2 : Nat)
    (hres : insertMissingnessRef heap r perc stream = .ok (heap2, r2)) :
    r2 = r
    ∧ heap2 = heap.set r (setMissing (heap.getD r [])
        (drawnIndices (heap.getD r []).length perc stream))
    ∧ (∀ j, j ≠ r → heap2[j]? = heap[j]?)
    ∧ (r < heap.length → heap2[r]? = some (setMissing (heap.getD r [])
        (drawnIndices (heap.getD r []).length perc stream))) := by
  unfold insertMissingnessRef at hres
  cases hm : insert_missingness (heap.getD r []) perc stream with
  | error e => rw [hm] at hres; cases hres
  | ok b =>
    rw [hm] at hres
    dsimp only at hres
    simp only [Except.ok.injEq, Prod.mk.injEq] at hres
    obtain ⟨hh, hr⟩ := hres
    unfold insert_missingness nprandint at hm
    by_cases hl : (heap.getD r []).length ≤ 0
    · rw [if_pos hl] at hm; simp at hm
    · rw [if_neg hl] at hm
      dsimp only at hm
      simp only [Except.ok.injEq] at hm
      have hb : b = setMissing (heap.getD r [])
          (drawnIndices (heap.getD r []).length perc stream) := by
        rw [← hm]; simp [drawnIndices]
      refine ⟨hr.symm, ?_, ?_, ?_⟩
      · rw [← hh, hb]
      · intro j hj
        rw [← hh]
        exact List.getElem?_set_ne (fun hc => hj hc.symm)
      · intro hlt
        rw [← hh, hb]
        exact List.getElem?_set_eq_of_lt _ hlt

/-- Claim C10 witness: a heap of one list of two values at 50 percent; the
call returns the same reference 0, the cell now reads with the missing
marker at position 0, and the heap equals the single-cell update. -/
theorem insert_missingness_in_place_witness :
    0 = 0
    ∧ ([[Value.missing, Value.num 2]] : List (List Value))
        = [[Value.num 1, Value.num 2]].set 0
            (setMissing ([[Value.num 1, Value.num 2]].getD 0 [])
              (drawnIndices (([[Value.num 1, Value.num 2]] :
                List (List Value)).getD 0 []).length 50 zN))
    ∧ (∀ j, j ≠ 0 → ([[Value.missing, Value.num 2]] : List (List Value))[j]?
        = ([[Value.num 1, Value.num 2]] : List (List Value))[j]?)
    ∧ (0 < ([[Value.num 1, Value.num 2]] : List (List Value)).length →
        ([[Value.missing, Value.num 2]] : List (List Value))[0]?
          = some (setMissing ([[Value.num 1, Value.num 2]].getD 0 [])
              (drawnIndices (([[Value.num 1, Value.num 2]] :
                List (List Value)).getD 0 []).length 50 zN))) :=
  insert_missingness_in_place [[Value.num 1, Value.num 2]] 0 50 zN
    [[Value.missing, Value.num 2]] 0 rfl

theorem gen_field_name_ok (fields : List FieldMetadata) (fid : Int) (i a : Nat)
    (human : Bool) (md : FieldMetadata)
    (hmd : get_field_metadata fields fid = some md) :
    gen_field_name fields fid i a human
      = .ok (expectedName fields fid i a human) := by
  cases human <;> simp [gen_field_name, expectedName, hmd]

theorem processSlice_name (fields : List FieldMetadata)
    (encodings : List EncodingEntry) (stats : List StatEntry) (fid : Int)
    (i a : Nat) (n : Nat) (human : Bool) (jitter : Nat) (stream : Nat → Nat)
    (gauss : Nat → Rat) (mstream : Nat → Nat) (md : FieldMetadata)
    (col : String × List Value)
    (hmd : get_field_metadata fields fid = some md)
    (h : processSlice fields encodings stats fid i a n human jitter
      stream gauss mstream = .ok col) :
    col.1 = expectedName fields fid i a human := by
  unfold processSlice at h
  rw [gen_field_name_ok fields fid i a human md hmd] at h
  dsimp only at h
  split at h
  · exact absurd h (by simp)
  · split at h
    · exact absurd h (by simp)
    · split at h
      · exact absurd h (by simp)
      · simp only [Except.ok.injEq] at h
        rw [← h]

theorem processSlices_names (fields : List FieldMetadata)
    (encodings : List EncodingEntry) (stats : List StatEntry) (fid : Int)
    (n : Nat) (human : Bool) (jitter : Nat) (rng : Nat → Nat → Nat)
    (gauss : Nat → Nat → Rat) (mrng : Nat → Nat → Nat) (md : FieldMetadata)
    (hmd : get_field_metadata fields fid = some md) :
    ∀ (ps : List (Nat × Nat)) (c : Nat) (cols : List (String × List Value)),
      processSlices fields encodings stats fid n human jitter rng gauss mrng
        ps c = .ok cols →
      cols.map Prod.fst = ps.map (fun p => expectedName fields fid p.1 p.2 human) := by
  intro ps
  induction ps with
  | nil =>
    intro c cols h
    unfold processSlices at h
    simp only [Except.ok.injEq] at h
    rw [← h]
    rfl
  | cons p rest ih =>
    intro c cols h
    unfold processSlices at h
    split at h
    · exact absurd h (by simp)
    · next col heq =>
      split at h
      · exact absurd h (by simp)
      · next cols2 heq2 =>
        simp only [Except.ok.injEq] at h
        rw [← h]
        simp only [List.map_cons]
        rw [processSlice_name fields encodings stats fid p.1 p.2 n human jitter
            (rng c) (gauss c) (mrng c) md col hmd heq]
        rw [ih (c + 1) cols2 heq2]

theorem processField_names (fields : List FieldMetadata)
    (encodings : List EncodingEntry) (stats : List StatEntry) (fid : Int)
    (n : Nat) (human : Bool) (jitter : Nat) (rng : Nat → Nat → Nat)
    (gauss : Nat → Nat → Rat) (mrng : Nat → Nat → Nat) (c : Nat)
    (out : List (String × List Value) × Nat)
    (h : processField fields encodings stats fid n human jitter rng gauss mrng c
      = .ok out) :
    out.1.map Prod.fst = expectedNames fields fid human := by
  unfold processField at h
  split at h
  · exact absurd h (by simp)
  · next md hmd =>
    dsimp only at h
    split at h
    · exact absurd h (by simp)
    · next cols heq =>
      simp only [Except.ok.injEq] at h
      rw [← h]
      dsimp only
      rw [processSlices_names fields encodings stats fid n human jitter
          rng gauss mrng md hmd _ _ _ heq]
      unfold expectedNames
      rw [hmd]

theorem processFields_names (fields : List FieldMetadata)
    (encodings : List EncodingEntry) (stats : List StatEntry) (n : Nat)
    (human : Bool) (jitter : Nat) (rng : Nat → Nat → Nat)
    (gauss : Nat → Nat → Rat) (mrng : Nat → Nat → Nat) :
    ∀ (fids : List Int) (c : Nat) (cols : List (String × List Value)),
      processFields fields encodings stats fids n human jitter rng gauss mrng c
        = .ok cols →
      cols.map Prod.fst = fids.flatMap (fun fid => expectedNames fields fid human) := by
  intro fids
  induction fids with
  | nil =>
    intro c cols h
    unfold processFields at h
    simp only [Except.ok.injEq] at h
    rw [← h]
    rfl
  | cons fid rest ih =>
    intro c cols h
    unfold processFields at h
    split at h
    · exact absurd h (by simp)
    · next out heq =>
      split at h
      · exact absurd h (by simp)
      · next cols2 heq2 =>
        simp only [Except.ok.injEq] at h
        rw [← h]
        simp only [List.map_append, List.flatMap_cons]
        rw [processField_names fields encodings stats fid n human jitter
            rng gauss mrng _ out heq]
        rw [ih _ cols2 heq2]

theorem assemble_ok_names (fields : List FieldMetadata)
    (encodings : List EncodingEntry) (stats : List StatEntry)
    (requested : Option (List Int)) (enum : List Int) (n : Nat) (human : Bool)
    (jitter : Nat) (rng : Nat → Nat → Nat) (gauss : Nat → Nat → Rat)
    (mrng : Nat → Nat → Nat) (cols : List (String × List Value))
    (h : assemble fields encodings stats requested enum n human jitter
      rng gauss mrng = .ok cols) :
    cols.map Prod.fst = "eid" ::
      ((processOrder (get_field_ids fields) requested enum).flatMap
        (fun fid => expectedNames fields fid human)) := by
  unfold assemble at h
  split at h
  · exact absurd h (by simp)
  · next fs heqf =>
    split at h
    · exact absurd h (by simp)
    · next cols0 heqp =>
      simp only [Except.ok.injEq] at h
      rw [← h]
      simp only [List.map_cons]
      rw [processFields_names fields encodings stats n human jitter
          rng gauss mrng fs 0 cols0 heqp]
      have hfs : fs = processOrder (get_field_ids fields) requested enum := by
        cases requested with
        | none =>
          simp only [fields_to_process, Except.ok.injEq] at heqf
          simp only [processOrder]
          rw [← heqf]
        | some fs2 =>
          simp only [fields_to_process] at heqf
          by_cases he : enum.isEmpty
          · rw [if_pos he] at heqf
            exact absurd heqf (by simp)
          · rw [if_neg he] at heqf
            simp only [Except.ok.injEq] at heqf
            simp only [processOrder]
            rw [← heqf]
      rw [hfs]

/-- Claim C9 (amended): the columns of the assembled table are the eid
column followed by the field columns in processing order, with the
(instance, array) slices of each field consecutive and instance-major.
The processing order is the metadata-table order when no field filter is
supplied; when a filter is supplied, it is the iteration order of the
unordered set intersection of the catalog ids and the filter (an order the
code leaves unspecified), not the user-supplied filter order. -/
theorem assemble_column_order (fields : List FieldMetadata)
    (encodings : List EncodingEntry) (stats : List StatEntry)
    (requested : Option (List Int)) (enum : List Int) (n : Nat) (human : Bool)
    (jitter : Nat) (rng : Nat → Nat → Nat) (gauss : Nat → Nat → Rat)
    (mrng : Nat → Nat → Nat) (cols : List (String × List Value))
    (henum : ∀ fs, requested = some fs →
      isEnumOf enum (setInter (get_field_ids fields) fs))
    (h : assemble fields encodings stats requested enum n human jitter
      rng gauss mrng = .ok cols) :
    cols.map Prod.fst = "eid" ::
      ((processOrder (get_field_ids fields) requested enum).flatMap
        (fun fid => expectedNames fields fid human)) :=
  assemble_ok_names fields encodings stats requested enum n human jitter
    rng gauss mrng cols h

/-- Claim C9 witness: a run without a field filter over a one-field catalog;
the assembled columns are the eid column followed by the slices of field 3
in metadata-table order. -/
theorem assemble_column_order_witness :
    ([("eid", [Value.str "fake1"]), ("3-0.0", [Value.date 0])] :
        List (String × List Value)).map Prod.fst
      = "eid" :: ((processOrder (get_field_ids catA) none []).flatMap
            (fun fid => expectedNames catA fid false)) :=
  assemble_column_order catA [] [] none [] 1 false 0 zN2 zQ2 zN2
    [("eid", [Value.str "fake1"]), ("3-0.0", [Value.date 0])]
    (fun _ hfs => nomatch hfs) rfl

/-- Claim C9 counterexample: the filter [31, 34] with the set-iteration
order [34, 31] (a legitimate enumeration of the unordered intersection)
produces columns in the order eid, 34-0.0, 31-0.0, which is not the
user-supplied filter order eid, 31-0.0, 34-0.0. -/
theorem column_order_not_user_order_cex :
    isEnumOf [34, 31] (setInter (get_field_ids catB) [31, 34])
    ∧ colNames (assemble catB [] [] (some [31, 34]) [34, 31] 1 false 0
        zN2 zQ2 zN2) = .ok ["eid", "34-0.0", "31-0.0"]
    ∧ (["eid", "34-0.0", "31-0.0"] : List String)
        ≠ ["eid", "31-0.0", "34-0.0"] :=
  ⟨by decide, by rfl, by decide⟩

/-- Claim C3 counterexample: requesting the field list [3, 999999] against
a catalog knowing only field 3: the set intersection is the non-empty {3},
the assertion passes, and assembly succeeds with a table holding only the
eid column and the field-3 column, silently omitting 999999 instead of
failing. -/
theorem unknown_field_not_failing_cex :
    isEnumOf [3] (setInter (get_field_ids catA) [3, 999999])
    ∧ colNames (assemble catA [] [] (some [3, 999999]) [3] 1 false 0
        zN2 zQ2 zN2) = .ok ["eid", "3-0.0"] :=
  ⟨by decide, by rfl⟩

/-- Claim C3 (amended): with a user-supplied field list, assembly fails
(the assertion, with the fixed message naming no field id) exactly when
every requested field id is absent from the catalog, so the intersection
is empty; when at least one requested id is known, the unknown ids are
silently dropped and a table is assembled from the known fields only. -/
theorem assemble_unknown_fields (fields : List FieldMetadata)
    (encodings : List EncodingEntry) (stats : List StatEntry)
    (fs enum : List Int) (n : Nat) (human : Bool) (jitter : Nat)
    (rng : Nat → Nat → Nat) (gauss : Nat → Nat → Rat) (mrng : Nat → Nat → Nat)
    (henum : isEnumOf enum (setInter (get_field_ids fields) fs)) :
    ((∀ f ∈ fs, f ∉ get_field_ids fields) →
      assemble fields encodings stats (some fs) enum n human jitter
        rng gauss mrng = .error "Fields not found in lookup file.")
    ∧ (∀ cols, assemble fields encodings stats (some fs) enum n human jitter
        rng gauss mrng = .ok cols →
        cols.map Prod.fst = "eid" ::
          enum.flatMap (fun fid => expectedNames fields fid human)) := by
  constructor
  · intro habs
    have hienull : enum = [] := by
      rcases henum with ⟨_, hsub, _⟩
      cases henum_e : enum with
      | nil => rfl
      | cons x t =>
        exfalso
        have hx : x ∈ setInter (get_field_ids fields) fs := by
          apply hsub
          rw [henum_e]
          exact List.mem_cons_self x t
        have hx2 := List.mem_filter.mp hx
        have hxin : x ∈ get_field_ids fields := hx2.1
        have hxfs : x ∈ fs := by
          have := hx2.2
          simpa using this
        exact habs x hxfs hxin
    subst hienull
    rfl
  · intro cols h
    have hn := assemble_ok_names fields encodings stats (some fs) enum n human
      jitter rng gauss mrng cols h
    simpa [processOrder] using hn

/-- Claim C3 witness for the amended claim: requesting only the unknown id
999999 makes the intersection empty and assembly fail with the assertion
message; the drop clause is instantiated vacuously. -/
theorem assemble_unknown_fields_witness :
    ((∀ f ∈ ([999999] : List Int), f ∉ get_field_ids catA) →
      assemble catA [] [] (some [999999]) [] 2 false 0 zN2 zQ2 zN2
        = .error "Fields not found in lookup file.")
    ∧ (∀ cols, assemble catA [] [] (some [999999]) [] 2 false 0 zN2 zQ2 zN2
        = .ok cols →
        cols.map Prod.fst = "eid" ::
          ([] : List Int).flatMap (fun fid => expectedNames catA fid false)) :=
  assemble_unknown_fields catA [] [] [999999] [] 2 false 0 zN2 zQ2 zN2
    (by decide)

end Tofu
